import Mathlib

/-!
Verification development for the aceru-checkout CSV pipeline.

The Python sources are shallowly embedded: strings are `String` (with the
character-level operations `lower`, `strip`, `split`, slicing modelled on
`List Char`), currency amounts are `ℚ`, CSV tables are lists of rows, and
the LLM gateway is an oracle parameter (`Option LLMData`): `none` models a
failing gateway call, `some d` a call returning the parsed JSON `d`.
-/

/-! ## Python string primitives (character-level model, ASCII semantics) -/

/-- Python `str.isspace` characters relevant to `str.split()` / `str.strip()`:
space, tab, newline, carriage return, vertical tab, form feed. -/
def isPySpace (c : Char) : Bool :=
  c == ' ' || c == '\t' || c == '\n' || c == '\r' || c == '\x0b' || c == '\x0c'

/-- Drop matching characters from the end of a list (the right half of `strip`). -/
def dropTrail (p : Char → Bool) (l : List Char) : List Char :=
  (l.reverse.dropWhile p).reverse

/-- Python `str.strip`-style stripping of characters matching `p` from both ends. -/
def stripBoth (p : Char → Bool) (l : List Char) : List Char :=
  dropTrail p (l.dropWhile p)

/-- Python `s.strip()` (whitespace strip). -/
def pyStrip (s : String) : String :=
  String.mk (stripBoth isPySpace s.data)

/-- Python `s.lower()` at character level (ASCII). -/
def lowerL (l : List Char) : List Char :=
  l.map Char.toLower

/-- Worker for Python `str.split()` with no separator: split on runs of
whitespace, discarding empty fields.  `acc` is the current word, reversed. -/
def splitWSAux : List Char → List Char → List (List Char)
  | acc, [] => if acc.isEmpty then [] else [acc.reverse]
  | acc, c :: rest =>
    if isPySpace c then
      if acc.isEmpty then splitWSAux [] rest else acc.reverse :: splitWSAux [] rest
    else splitWSAux (c :: acc) rest

/-- Python `s.split()` (whitespace split, empty fields dropped). -/
def pySplitWS (l : List Char) : List (List Char) :=
  splitWSAux [] l

/-- Python `"-".join(tokens)` at character level. -/
def joinDash : List (List Char) → List Char
  | [] => []
  | [t] => t
  | t :: ts => t ++ '-' :: joinDash ts

/-- Python slicing `s[:n]` (by code point). -/
def pySlice (n : Nat) (s : String) : String :=
  String.mk (s.data.take n)

/-- Python `s.upper()` at character level (ASCII). -/
def pyUpper (s : String) : String :=
  String.mk (s.data.map Char.toUpper)

/-- Characters matched by the regex class `[a-z0-9]`. -/
def isLowerAlnum (c : Char) : Bool :=
  (97 ≤ c.toNat && c.toNat ≤ 122) || (48 ≤ c.toNat && c.toNat ≤ 57)

/-- The hyphen character test used when stripping slugs. -/
def isDash (c : Char) : Bool :=
  c == '-'

/-- Characters that may appear in the body of a cleaned slug: `[a-z0-9-]`. -/
def okChar (c : Char) : Bool :=
  isLowerAlnum c || isDash c

/-- Boolean head test: the list is empty or its head does not satisfy `p`. -/
def headNotB (p : Char → Bool) : List Char → Bool
  | [] => true
  | c :: _ => !p c

/-- No two adjacent hyphens anywhere in the list. -/
def noDD (l : List Char) : Prop :=
  l.Chain' (fun a b => ¬(a = '-' ∧ b = '-'))

/-- Replace each maximal run of characters outside `[a-z0-9]` by a single
hyphen: the substitution `re.sub(r"[^a-z0-9]+", "-", s)`.  The flag records
whether we are inside such a run (its hyphen already emitted). -/
def subNonAlnum : Bool → List Char → List Char
  | _, [] => []
  | inRun, c :: rest =>
    if isLowerAlnum c then c :: subNonAlnum false rest
    else if inRun then subNonAlnum true rest
    else '-' :: subNonAlnum true rest

/-- Collapse each run of two or more hyphens to a single hyphen: the
substitution `re.sub(r"-{2,}", "-", s)`.  The flag records whether the
previously emitted character was a hyphen. -/
def collapseDashes : Bool → List Char → List Char
  | _, [] => []
  | prev, c :: rest =>
    if isDash c then
      if prev then collapseDashes true rest else '-' :: collapseDashes true rest
    else c :: collapseDashes false rest

/-! ## The three slug implementations

`ecom_agents.py` line 186 and `pod_variants_builder.py` line 18 both read
`def slug(s): return "-".join(str(s).lower().strip().split())`.
`image_seo_prep.py` lines 32-36 lowercases and strips, replaces runs of
non-alphanumerics with hyphens, collapses hyphen runs, strips hyphens, and
falls back to the literal `"item"` for an empty result. -/

/-- Common body of the join-split slug. -/
def joinSplitSlugCore (l : List Char) : List Char :=
  joinDash (pySplitWS (stripBoth isPySpace (lowerL l)))

namespace EcomAgents

/-- `ecom_agents.py` line 186: `"-".join(str(s).lower().strip().split())`. -/
def slug (s : String) : String :=
  String.mk (joinSplitSlugCore s.data)

end EcomAgents

namespace PodVariantsBuilder

/-- `pod_variants_builder.py` line 18: `"-".join(str(s).lower().strip().split())`. -/
def slug (s : String) : String :=
  String.mk (joinSplitSlugCore s.data)

end PodVariantsBuilder

/-- Character-level body of `image_seo_prep.py`'s `slug`. -/
def imageSlugCore (l : List Char) : List Char :=
  let t := stripBoth isPySpace (lowerL l)
  let v := stripBoth isDash (collapseDashes false (subNonAlnum false t))
  if v.isEmpty then ("item").data else v

namespace ImageSeoPrep

/-- `image_seo_prep.py` lines 32-36: lowercase, strip, `[^a-z0-9]+` to `-`,
collapse `-{2,}`, strip `-`, with fallback `"item"`. -/
def slug (s : String) : String :=
  String.mk (imageSlugCore s.data)

end ImageSeoPrep

/-! ## Budget guard (`ecom_agents.py` lines 37-47, `seed_from_kit.py` lines 31-40)

Currency amounts are modelled as rationals.  `check_and_book` returns the
(possibly) updated state and a flag that is `true` exactly when the Python
code raises `RuntimeError` ("Budget cap hit"); on raising, the state is
returned unchanged, mirroring that `self.spent` is not mutated. -/

structure BudgetGuard where
  total : ℚ
  spent : ℚ
  est : ℚ
deriving DecidableEq

namespace EcomAgents

/-- `BudgetGuard.check_and_book`: `projected = self.spent + self.est * calls`;
raise if `projected > self.total`, else commit `self.spent = projected`. -/
def check_and_book (b : BudgetGuard) (calls : Nat) : BudgetGuard × Bool :=
  if b.total < b.spent + b.est * calls then (b, true)
  else ({ b with spent := b.spent + b.est * calls }, false)

end EcomAgents

namespace SeedFromKit

/-- `seed_from_kit.py` `BudgetGuard.book`: identical arithmetic and control
flow to `check_and_book` (only the error message differs). -/
def book (b : BudgetGuard) (n : Nat) : BudgetGuard × Bool :=
  if b.total < b.spent + b.est * n then (b, true)
  else ({ b with spent := b.spent + b.est * n }, false)

end SeedFromKit

/-- Iterate reservations over a run; a rejected reservation leaves the state
unchanged (whether the exception is caught or aborts, no later state in the
same run ever has a smaller `spent`). -/
def bookSeq (b : BudgetGuard) : List Nat → BudgetGuard
  | [] => b
  | n :: rest => bookSeq (EcomAgents.check_and_book b n).1 rest

/-! ## Row enrichment (`ecom_agents.py` `generate_product_copy`, lines 99-166) -/

/-- One input row after field extraction (lines 109-115): each field is
`str(r.get(...)).strip()` or the price/tags defaults already applied. -/
structure CopyRow where
  title : String
  features : String
  materials : String
  use_cases : String
  price : String
  sku : String
  tags : String
deriving DecidableEq

/-- The value found under `"tags"` in the parsed gateway JSON: either a list
(joined with `", "`) or some non-list value (falls back to the row's tags). -/
inductive JTags
  | list (l : List String)
  | nonlist
deriving DecidableEq

/-- Parsed gateway JSON for one row: the keys `generate_product_copy` reads,
each possibly absent. -/
structure LLMData where
  title_seo : Option String
  body_html : Option String
  tags : Option JTags
deriving DecidableEq

/-- Reasons the guarded gateway call `llm_json` can raise inside the per-row
`try` block. -/
inductive CallErr
  | budgetExceeded
  | gatewayFailure
deriving DecidableEq

/-- One output row of `generate_product_copy` (the dict of lines 142-162). -/
structure OutRow where
  title : String
  bodyHtml : String
  vendor : String
  typ : String
  tags : String
  published : Bool
  option1Name : String
  option1Value : String
  variantSKU : String
  variantPrice : String
  variantInventoryQty : Nat
  variantInventoryPolicy : String
  variantFulfillmentService : String
  variantRequiresShipping : Bool
  variantTaxable : Bool
  imageSrc : String
  variantGrams : String
  costPerItem : String
  status : String
deriving DecidableEq

namespace EcomAgents

/-- The output dict shared by the success and fallback branches
(lines 142-162), parameterised by the branch-dependent title, body and tags. -/
def mkOutRow (out_title body_html tag_str : String) (r : CopyRow) (vendor : String) :
    OutRow where
  title := out_title
  bodyHtml := body_html
  vendor := vendor
  typ := ("")
  tags := tag_str
  published := true
  option1Name := ("Title")
  option1Value := ("Default Title")
  variantSKU := if r.sku = ("") then ("") else r.sku
  variantPrice := r.price
  variantInventoryQty := 10
  variantInventoryPolicy := ("deny")
  variantFulfillmentService := ("manual")
  variantRequiresShipping := true
  variantTaxable := true
  imageSrc := ("")
  variantGrams := ("")
  costPerItem := ("")
  status := ("active")

/-- The bullet list of the heuristic fallback (line 138):
`"".join(f"<li>{x.strip()}</li>" for x in features.split(",") if x.strip())`. -/
def bulletList (features : String) : String :=
  String.join (((features.splitOn (",")).filter
      (fun x => pyStrip x ≠ (""))).map
    (fun x => ("<li>") ++ pyStrip x ++ ("</li>")))

/-- The deterministic heuristic fallback row (lines 136-140). -/
def fallbackRow (r : CopyRow) (vendor : String) : OutRow :=
  let out_title := pySlice 70 r.title
  let body_html :=
    ("<h3>Highlights</h3><ul>") ++ bulletList r.features ++
      ("</ul><h3>Details</h3><p>") ++ r.materials ++
      ("</p><h3>Shipping & Returns</h3><p>30-day returns. Tracked shipping.</p>")
  mkOutRow out_title body_html r.tags r vendor

/-- The success branch (lines 130-134): adopt `title_seo` (default the
original title) truncated to 70, `body_html` (default empty), and the tag
list joined with `", "` when it is a list, else `base_tags or ""`. -/
def successRow (r : CopyRow) (d : LLMData) (vendor : String) : OutRow :=
  let out_title := pySlice 70 (d.title_seo.getD r.title)
  let body_html := d.body_html.getD ("")
  let tag_str :=
    match d.tags.getD (JTags.list []) with
    | JTags.list l => String.intercalate (", ") l
    | JTags.nonlist => if r.tags = ("") then ("") else r.tags
  mkOutRow out_title body_html tag_str r vendor

/-- `llm_json` (lines 51-64) under a gateway oracle: first
`BUDGET.check_and_book(1)` (raising leaves the budget untouched), then the
network call, which fails iff the oracle is `none`. -/
def llm_json_step (b : BudgetGuard) (resp : Option LLMData) :
    BudgetGuard × Except CallErr LLMData :=
  let booked := check_and_book b 1
  if booked.2 then (b, Except.error CallErr.budgetExceeded)
  else
    match resp with
    | none => (booked.1, Except.error CallErr.gatewayFailure)
    | some d => (booked.1, Except.ok d)

/-- One iteration of the row loop (lines 108-162): `try` the gateway call,
and on any exception — budget rejection included — fall back. -/
def processRow (b : BudgetGuard) (r : CopyRow) (resp : Option LLMData)
    (vendor : String) : BudgetGuard × OutRow :=
  let step := llm_json_step b resp
  match step.2 with
  | Except.ok d => (step.1, successRow r d vendor)
  | Except.error _ => (step.1, fallbackRow r vendor)

/-- `generate_product_copy` over a batch: each input row is paired with its
gateway oracle outcome; the budget state threads through the loop. -/
def generate_product_copy (b : BudgetGuard) (vendor : String) :
    List (CopyRow × Option LLMData) → BudgetGuard × List OutRow
  | [] => (b, [])
  | p :: rest =>
    let st := processRow b p.1 p.2 vendor
    let next := generate_product_copy st.1 vendor rest
    (next.1, st.2 :: next.2)

end EcomAgents

/-! ## Variant expander (`pod_variants_builder.py` lines 12-67) -/

namespace PodVariantsBuilder

def SIZES : List String := [("S"), ("M"), ("L"), ("XL"), ("2XL")]

def COLORS : List String := [("black"), ("white"), ("navy")]

/-- `PRICE_BY_SIZE.get size` (line 15). -/
def PRICE_BY_SIZE (size : String) : Option String :=
  if size = ("S") then some ("24.90")
  else if size = ("M") then some ("24.90")
  else if size = ("L") then some ("24.90")
  else if size = ("XL") then some ("26.90")
  else if size = ("2XL") then some ("26.90")
  else none

def SKU_PREFIX : String := ("TEE")

/-- A Python value that is either a string or a bool (the `Published` column
holds `True` on first rows and `""` on the rest). -/
inductive PyVal
  | str (v : String)
  | pybool (v : Bool)
deriving DecidableEq

/-- Base-row fields as extracted at lines 27-32 (`r.get` defaults applied). -/
structure BaseRow where
  title : String
  body : String
  vendor : String
  tags : String
  status : String
  variantPrice : String
deriving DecidableEq

/-- One emitted variant row: the dict of lines 38-66. -/
structure PodRow where
  handle : String
  title : String
  bodyHtml : String
  vendor : String
  typ : String
  tags : String
  published : PyVal
  option1Name : String
  option1Value : String
  option2Name : String
  option2Value : String
  variantSKU : String
  variantGrams : String
  variantInventoryTracker : String
  variantInventoryQty : Nat
  variantInventoryPolicy : String
  variantFulfillmentService : String
  variantPrice : String
  variantCompareAtPrice : String
  variantRequiresShipping : Bool
  variantTaxable : Bool
  imageSrc : String
  imagePosition : String
  giftCard : String
  seoTitle : String
  seoDescription : String
  status : String
deriving DecidableEq

/-- The per-variant SKU `f"{SKU_PREFIX}-{color[:1].upper()}{size}"` (line 36). -/
def skuOf (color size : String) : String :=
  SKU_PREFIX ++ ("-") ++ pyUpper (pySlice 1 color) ++ size

/-- The row dict appended at lines 38-66 for one `(color, size)` pair. -/
def mkPodRow (base : BaseRow) (color size : String) (first : Bool) : PodRow where
  handle := if first then slug base.title else ("")
  title := if first then base.title else ("")
  bodyHtml := if first then base.body else ("")
  vendor := if first then base.vendor else ("")
  typ := if first then ("t-shirt") else ("")
  tags := if first then base.tags else ("")
  published := if first then PyVal.pybool true else PyVal.str ("")
  option1Name := ("Color")
  option1Value := color
  option2Name := ("Size")
  option2Value := size
  variantSKU := skuOf color size
  variantGrams := ("")
  variantInventoryTracker := ("")
  variantInventoryQty := 20
  variantInventoryPolicy := ("deny")
  variantFulfillmentService := ("manual")
  variantPrice := (PRICE_BY_SIZE size).getD base.variantPrice
  variantCompareAtPrice := ("")
  variantRequiresShipping := true
  variantTaxable := true
  imageSrc := ("")
  imagePosition := ("")
  giftCard := ("FALSE")
  seoTitle := if first then pySlice 70 base.title else ("")
  seoDescription := if first then pySlice 140 (("High-quality ") ++ base.title) else ("")
  status := if first then base.status else ("active")

/-- `itertools.product(COLORS, SIZES)`: color-major, size-minor pairs. -/
def prodPairs (colors sizes : List String) : List (String × String) :=
  colors.flatMap (fun c => sizes.map (fun s => (c, s)))

/-- The inner loop of `main` (lines 34-67): the `first` flag is true for the
first pair only and is set to false after every iteration. -/
def expandRowGo (base : BaseRow) : Bool → List (String × String) → List PodRow
  | _, [] => []
  | first, p :: rest => mkPodRow base p.1 p.2 first :: expandRowGo base false rest

/-- Expansion of one base row over the configured axes. -/
def expandRow (base : BaseRow) (colors sizes : List String) : List PodRow :=
  expandRowGo base true (prodPairs colors sizes)

/-- The whole of `main`'s row loop over the input table, with the configured
`COLORS`/`SIZES` matrices. -/
def podMain (bases : List BaseRow) : List PodRow :=
  bases.flatMap (fun b => expandRow b COLORS SIZES)

end PodVariantsBuilder

/-! ## Merge stage (`merge_images_into_products.py` lines 56-84) -/

namespace MergeImages

def REQUIRED_PRODUCT_COLS : List String :=
  [("Handle"), ("Title"), ("Body (HTML)"), ("Vendor"), ("Status")]

/-- One image row (its required columns, per `ensure_cols` on the image CSV). -/
structure ImgRow where
  handle : String
  src : String
  alt : String
  pos : String
deriving DecidableEq

/-- Lines 59-63: output columns are the product columns extended with any
missing image columns. -/
def outColsOf (prodCols : List String) : List String :=
  prodCols ++ ([("Image Src"), ("Image Alt Text"), ("Image Position")].filter
    (fun c => ¬ c ∈ prodCols))

/-- Lines 68-70: a product row emitted as `{c: r[c] if c in r else ""}`
over the output columns, in order. -/
def prodOutRow (prodCols outCols : List String) (r : String → String) :
    List (String × String) :=
  outCols.map (fun c => (c, if c ∈ prodCols then r c else ("")))

/-- Lines 73-80: an image row emitted from the blank template with only the
handle and image fields set. -/
def imgOutRow (outCols : List String) (ir : ImgRow) : List (String × String) :=
  outCols.map (fun c =>
    (c, if c = ("Handle") then ir.handle
        else if c = ("Image Src") then ir.src
        else if c = ("Image Alt Text") then ir.alt
        else if c = ("Image Position") then ir.pos
        else ("")))

/-- `main` (no `file_urls.csv` present): validate the product columns, then
emit all product rows followed by all image rows. -/
def mergeMain (prodCols : List String) (prodRows : List (String → String))
    (imgRows : List ImgRow) : Option (List (List (String × String))) :=
  if REQUIRED_PRODUCT_COLS.all (fun c => decide (c ∈ prodCols)) then
    some (prodRows.map (prodOutRow prodCols (outColsOf prodCols)) ++
      imgRows.map (imgOutRow (outColsOf prodCols)))
  else none

end MergeImages

/-! ## Schema normalizer (`ecom_agents.py` `build_shopify_csv`, lines 169-214)

Modelled at the CSV level: every cell is a string; the Python defaults
`True`, `10` are rendered as their CSV forms `"True"`, `"10"`. -/

/-- The fixed target schema, in output order (lines 177-183). -/
def requiredCols : List String :=
  [("Handle"), ("Title"), ("Body (HTML)"), ("Vendor"), ("Type"), ("Tags"),
   ("Published"), ("Option1 Name"), ("Option1 Value"), ("Variant SKU"),
   ("Variant Grams"), ("Variant Inventory Tracker"), ("Variant Inventory Qty"),
   ("Variant Inventory Policy"), ("Variant Fulfillment Service"),
   ("Variant Price"), ("Variant Compare At Price"),
   ("Variant Requires Shipping"), ("Variant Taxable"), ("Image Src"),
   ("Image Position"), ("Gift Card"), ("SEO Title"), ("SEO Description"),
   ("Status")]

/-- One normalized output row (the 25 target columns). -/
structure ShopifyRow where
  handle : String
  title : String
  bodyHtml : String
  vendor : String
  typ : String
  tags : String
  published : String
  option1Name : String
  option1Value : String
  variantSKU : String
  variantGrams : String
  variantInventoryTracker : String
  variantInventoryQty : String
  variantInventoryPolicy : String
  variantFulfillmentService : String
  variantPrice : String
  variantCompareAtPrice : String
  variantRequiresShipping : String
  variantTaxable : String
  imageSrc : String
  imagePosition : String
  giftCard : String
  seoTitle : String
  seoDescription : String
  status : String
deriving DecidableEq

namespace EcomAgents

/-- The per-row column mapping of lines 186-211.  `cols` is the input
table's column set; `df.get(col, default)` reads the cell when the column is
present and the default otherwise. -/
def normRow (cols : List String) (r : String → String) : ShopifyRow where
  handle := slug (r ("Title"))
  title := r ("Title")
  bodyHtml := r ("Body (HTML)")
  vendor := if ("Vendor") ∈ cols then r ("Vendor") else ("Aceru Studio")
  typ := if ("Type") ∈ cols then r ("Type") else ("")
  tags := if ("Tags") ∈ cols then r ("Tags") else ("")
  published := if ("Published") ∈ cols then r ("Published") else ("True")
  option1Name := if ("Option1 Name") ∈ cols then r ("Option1 Name") else ("Title")
  option1Value :=
    if ("Option1 Value") ∈ cols then r ("Option1 Value") else ("Default Title")
  variantSKU := if ("Variant SKU") ∈ cols then r ("Variant SKU") else ("")
  variantGrams := if ("Variant Grams") ∈ cols then r ("Variant Grams") else ("")
  variantInventoryTracker := ("")
  variantInventoryQty :=
    if ("Variant Inventory Qty") ∈ cols then r ("Variant Inventory Qty") else ("10")
  variantInventoryPolicy :=
    if ("Variant Inventory Policy") ∈ cols then r ("Variant Inventory Policy")
    else ("deny")
  variantFulfillmentService :=
    if ("Variant Fulfillment Service") ∈ cols then r ("Variant Fulfillment Service")
    else ("manual")
  variantPrice := if ("Variant Price") ∈ cols then r ("Variant Price") else ("19.99")
  variantCompareAtPrice := ("")
  variantRequiresShipping :=
    if ("Variant Requires Shipping") ∈ cols then r ("Variant Requires Shipping")
    else ("True")
  variantTaxable :=
    if ("Variant Taxable") ∈ cols then r ("Variant Taxable") else ("True")
  imageSrc := if ("Image Src") ∈ cols then r ("Image Src") else ("")
  imagePosition := ("")
  giftCard := ("FALSE")
  seoTitle := pySlice 70 (r ("Title"))
  seoDescription := ("High-quality ") ++ pySlice 140 (r ("Title"))
  status := if ("Status") ∈ cols then r ("Status") else ("active")

/-- `build_shopify_csv` over a table `(cols, rows)`: `out["Title"] = df["Title"]`
and `out["Body (HTML)"] = df["Body (HTML)"]` raise `KeyError` when those
columns are absent, aborting the stage; otherwise every row is normalized. -/
def build_shopify_csv (cols : List String) (rows : List (String → String)) :
    Option (List ShopifyRow) :=
  if ("Title") ∈ cols ∧ ("Body (HTML)") ∈ cols then
    some (rows.map (normRow cols))
  else none

/-- Reading one written output row back: the CSV written by the stage has
exactly the 25 target columns, valued by the row's fields. -/
def rowFun (x : ShopifyRow) : String → String := fun c =>
  if c = ("Handle") then x.handle
  else if c = ("Title") then x.title
  else if c = ("Body (HTML)") then x.bodyHtml
  else if c = ("Vendor") then x.vendor
  else if c = ("Type") then x.typ
  else if c = ("Tags") then x.tags
  else if c = ("Published") then x.published
  else if c = ("Option1 Name") then x.option1Name
  else if c = ("Option1 Value") then x.option1Value
  else if c = ("Variant SKU") then x.variantSKU
  else if c = ("Variant Grams") then x.variantGrams
  else if c = ("Variant Inventory Tracker") then x.variantInventoryTracker
  else if c = ("Variant Inventory Qty") then x.variantInventoryQty
  else if c = ("Variant Inventory Policy") then x.variantInventoryPolicy
  else if c = ("Variant Fulfillment Service") then x.variantFulfillmentService
  else if c = ("Variant Price") then x.variantPrice
  else if c = ("Variant Compare At Price") then x.variantCompareAtPrice
  else if c = ("Variant Requires Shipping") then x.variantRequiresShipping
  else if c = ("Variant Taxable") then x.variantTaxable
  else if c = ("Image Src") then x.imageSrc
  else if c = ("Image Position") then x.imagePosition
  else if c = ("Gift Card") then x.giftCard
  else if c = ("SEO Title") then x.seoTitle
  else if c = ("SEO Description") then x.seoDescription
  else if c = ("Status") then x.status
  else ("")

end EcomAgents

/-! ## Concrete sample data for witnesses and counterexamples -/

/-- A budget state whose ceiling is already unreachable: any reservation is
rejected. -/
def cexBudget : BudgetGuard where
  total := 0
  spent := 0
  est := 1

/-- A healthy budget state (the module defaults: cap 10.0, estimate 0.01). -/
def okBudget : BudgetGuard where
  total := 10
  spent := 0
  est := 1 / 100

/-- The sample product row scaffolded by `ecom_agents.py` lines 269-277. -/
def sampleRow : CopyRow where
  title := ("Minimalist Desk Mat (PU Leather, 90x45cm)")
  features := ("Water-resistant surface, anti-slip base, easy to clean, stitched edges")
  materials := ("PU leather top, microfiber base")
  use_cases := ("Home office, gaming desk, writing surface")
  price := ("24.90")
  sku := ("MAT-001")
  tags := ("desk-mat, minimalist, office, gaming, workspace")

/-- A gateway answer that would succeed were the budget not exhausted. -/
def sampleLLM : LLMData where
  title_seo := some ("Minimalist Desk Mat")
  body_html := some ("<p>great</p>")
  tags := some (JTags.list [("desk-mat"), ("office")])

/-- A base row whose status is `draft`, exercising the variant expander. -/
def cexBase : PodVariantsBuilder.BaseRow where
  title := ("Minimalist Desk Mat")
  body := ("<p>b</p>")
  vendor := ("Aceru Studio")
  tags := ("desk")
  status := ("draft")
  variantPrice := ("24.90")

/-- The base row of the spec scenario. -/
def mdmBase : PodVariantsBuilder.BaseRow where
  title := ("Minimalist Desk Mat")
  body := ("<p>b</p>")
  vendor := ("Aceru Studio")
  tags := ("")
  status := ("active")
  variantPrice := ("24.90")

/-- A minimal product table for the merge stage witness. -/
def w8Cols : List String :=
  [("Handle"), ("Title"), ("Body (HTML)"), ("Vendor"), ("Status")]

def w8Row : String → String := fun c =>
  if c = ("Handle") then ("desk-mat") else ("x")

def w8Img : MergeImages.ImgRow where
  handle := ("desk-mat")
  src := ("desk-mat-1.jpg")
  alt := ("Desk mat")
  pos := ("1")

def w8Out : List (List (String × String)) :=
  (MergeImages.mergeMain w8Cols [w8Row] [w8Img]).getD []

/-- A minimal input table for the schema-normalizer witness. -/
def w9Cols : List String := [("Title"), ("Body (HTML)")]

def w9Row : String → String := fun c =>
  if c = ("Title") then ("Desk Mat") else ("<p>x</p>")

def w9Out : List ShopifyRow :=
  (EcomAgents.build_shopify_csv w9Cols [w9Row]).getD []

/-! ## Character lemmas -/

theorem toLower_eq_self_of_not_upper (c : Char)
    (h : ¬(c.toNat ≥ 65 ∧ c.toNat ≤ 90)) : Char.toLower c = c := by
  show (if c.toNat ≥ 65 ∧ c.toNat ≤ 90 then Char.ofNat (c.toNat + 32) else c) = c
  rw [if_neg h]

theorem toLower_eq_ofNat_of_upper (c : Char)
    (h : c.toNat ≥ 65 ∧ c.toNat ≤ 90) :
    Char.toLower c = Char.ofNat (c.toNat + 32) := by
  show (if c.toNat ≥ 65 ∧ c.toNat ≤ 90 then Char.ofNat (c.toNat + 32) else c) =
    Char.ofNat (c.toNat + 32)
  rw [if_pos h]

theorem char_toNat_ofNat_valid (n : Nat) (h : n < 55296) :
    (Char.ofNat n).toNat = n := by
  rw [Char.ofNat, dif_pos (Or.inl h)]
  rfl

theorem toLower_idem (c : Char) :
    Char.toLower (Char.toLower c) = Char.toLower c := by
  by_cases h : c.toNat ≥ 65 ∧ c.toNat ≤ 90
  · rw [toLower_eq_ofNat_of_upper c h]
    apply toLower_eq_self_of_not_upper
    rw [char_toNat_ofNat_valid _ (by omega)]
    omega
  · rw [toLower_eq_self_of_not_upper c h]
    exact toLower_eq_self_of_not_upper c h

theorem alnum_ne_dash (c : Char) (h : isLowerAlnum c = true) : c ≠ '-' := by
  intro he
  subst he
  exact absurd h (by decide)

theorem dash_of_isDash {c : Char} (h : isDash c = true) : c = '-' := by
  simpa [isDash] using h

theorem ok_toLower_fix (c : Char) (h : okChar c = true) : Char.toLower c = c := by
  apply toLower_eq_self_of_not_upper
  rcases Bool.or_eq_true_iff.mp (by simpa [okChar] using h) with ha | hd
  · simp only [isLowerAlnum, Bool.or_eq_true, Bool.and_eq_true, decide_eq_true_eq] at ha
    omega
  · rw [dash_of_isDash hd]
    decide

theorem ok_not_space (c : Char) (h : okChar c = true) : isPySpace c = false := by
  cases hs : isPySpace c with
  | false => rfl
  | true =>
    exfalso
    simp only [isPySpace, Bool.or_eq_true, beq_iff_eq] at hs
    rcases hs with ((((h1 | h1) | h1) | h1) | h1) | h1 <;>
      (subst h1; exact absurd h (by decide))

/-! ## Strip and split lemmas -/

theorem all_dropWhile (q p : Char → Bool) :
    ∀ l : List Char, l.all q = true → (l.dropWhile p).all q = true := by
  intro l h
  induction l with
  | nil => simp
  | cons a t ih =>
    rw [List.dropWhile_cons]
    simp only [List.all_cons, Bool.and_eq_true] at h
    split
    · exact ih h.2
    · simp [List.all_cons, h.1, h.2]

theorem all_reverse_iff (q : Char → Bool) (l : List Char) :
    l.reverse.all q = l.all q := by
  simp [List.all_eq_true]

theorem all_stripBoth (q p : Char → Bool) (l : List Char) (h : l.all q = true) :
    (stripBoth p l).all q = true := by
  unfold stripBoth dropTrail
  rw [all_reverse_iff]
  apply all_dropWhile
  rw [all_reverse_iff]
  exact all_dropWhile q p l h

theorem headNotB_dropWhile (p : Char → Bool) :
    ∀ l : List Char, headNotB p (l.dropWhile p) = true := by
  intro l
  induction l with
  | nil => rfl
  | cons a t ih =>
    rw [List.dropWhile_cons]
    split
    · exact ih
    · next h => simp [headNotB, Bool.not_eq_true] at h ⊢; exact h

theorem dropWhile_id_of_headNotB (p : Char → Bool) (l : List Char)
    (h : headNotB p l = true) : l.dropWhile p = l := by
  cases l with
  | nil => rfl
  | cons a t =>
    simp only [headNotB, Bool.not_eq_true'] at h
    simp [List.dropWhile_cons, h]

theorem stripBoth_id_of_ends (p : Char → Bool) (l : List Char)
    (h1 : headNotB p l = true) (h2 : headNotB p l.reverse = true) :
    stripBoth p l = l := by
  unfold stripBoth dropTrail
  rw [dropWhile_id_of_headNotB p l h1, dropWhile_id_of_headNotB p l.reverse h2,
    List.reverse_reverse]

theorem headNotB_of_all (p : Char → Bool) (l : List Char)
    (h : l.all (fun c => !p c) = true) : headNotB p l = true := by
  cases l with
  | nil => rfl
  | cons a t =>
    simp only [List.all_cons, Bool.and_eq_true] at h
    simp [headNotB, h.1]

theorem stripBoth_id_of_all (p : Char → Bool) (l : List Char)
    (h : l.all (fun c => !p c) = true) : stripBoth p l = l := by
  apply stripBoth_id_of_ends
  · exact headNotB_of_all p l h
  · apply headNotB_of_all
    rw [all_reverse_iff]
    exact h

theorem mem_dropWhile_sub (p : Char → Bool) {c : Char} :
    ∀ {l : List Char}, c ∈ l.dropWhile p → c ∈ l := by
  intro l
  induction l with
  | nil => intro h; exact h
  | cons a t ih =>
    rw [List.dropWhile_cons]
    split
    · intro h; exact List.mem_cons_of_mem a (ih h)
    · intro h; exact h

theorem mem_stripBoth_sub (p : Char → Bool) {c : Char} {l : List Char}
    (h : c ∈ stripBoth p l) : c ∈ l := by
  unfold stripBoth dropTrail at h
  rw [List.mem_reverse] at h
  have h2 := mem_dropWhile_sub p h
  rw [List.mem_reverse] at h2
  exact mem_dropWhile_sub p h2

/-! ## No-double-dash lemmas -/

theorem noDD_nil : noDD [] := by
  simp [noDD]

theorem noDD_tail {a : Char} {l : List Char} (h : noDD (a :: l)) : noDD l :=
  List.Chain'.tail h

theorem noDD_dropWhile (p : Char → Bool) :
    ∀ l : List Char, noDD l → noDD (l.dropWhile p) := by
  intro l h
  induction l with
  | nil => exact h
  | cons a t ih =>
    rw [List.dropWhile_cons]
    split
    · exact ih (noDD_tail h)
    · exact h

theorem noDD_reverse {l : List Char} (h : noDD l) : noDD l.reverse := by
  unfold noDD at h ⊢
  rw [List.chain'_reverse]
  exact h.imp (fun a b hab hc => hab ⟨hc.2, hc.1⟩)

theorem noDD_stripBoth (p : Char → Bool) (l : List Char) (h : noDD l) :
    noDD (stripBoth p l) := by
  unfold stripBoth dropTrail
  exact noDD_reverse (noDD_dropWhile p _ (noDD_reverse (noDD_dropWhile p l h)))

theorem head_cond_of_headNotB {l : List Char} (h : headNotB isDash l = true) :
    ∀ y ∈ l.head?, y ≠ '-' := by
  intro y hy
  cases l with
  | nil => simp at hy
  | cons a t =>
    simp only [List.head?_cons, Option.mem_def, Option.some.injEq] at hy
    subst hy
    simp only [headNotB, isDash, Bool.not_eq_true', beq_eq_false_iff_ne, ne_eq] at h
    exact h

theorem headNotB_of_head_cond {l : List Char} (h : ∀ y ∈ l.head?, y ≠ '-') :
    headNotB isDash l = true := by
  cases l with
  | nil => rfl
  | cons a t =>
    simp only [headNotB, isDash, Bool.not_eq_true', beq_eq_false_iff_ne, ne_eq]
    exact h a (by simp)

theorem headNotB_of_noDD_dash {l : List Char} (h : noDD ('-' :: l)) :
    headNotB isDash l = true := by
  apply headNotB_of_head_cond
  intro y hy hdash
  subst hdash
  have := (List.chain'_cons'.mp h).1 '-' hy
  exact this ⟨rfl, rfl⟩

/-! ## Substitution pass lemmas (`re.sub(r"[^a-z0-9]+", "-", s)`) -/

theorem subNonAlnum_all_ok :
    ∀ (l : List Char) (flag : Bool), (subNonAlnum flag l).all okChar = true := by
  intro l
  induction l with
  | nil => intro flag; rfl
  | cons c rest ih =>
    intro flag
    unfold subNonAlnum
    by_cases h1 : isLowerAlnum c = true
    · rw [if_pos h1]
      simp [List.all_cons, okChar, h1, ih false]
    · rw [if_neg h1]
      cases flag with
      | true => simpa using ih true
      | false => simp [List.all_cons, okChar, isDash, ih true]

theorem subNonAlnum_noDD_head :
    ∀ (l : List Char) (flag : Bool),
      noDD (subNonAlnum flag l) ∧
        (flag = true → headNotB isDash (subNonAlnum flag l) = true) := by
  intro l
  induction l with
  | nil => intro flag; exact ⟨noDD_nil, fun _ => rfl⟩
  | cons c rest ih =>
    intro flag
    unfold subNonAlnum
    by_cases h1 : isLowerAlnum c = true
    · rw [if_pos h1]
      constructor
      · rw [noDD, List.chain'_cons']
        refine ⟨?_, (ih false).1⟩
        intro y _ hc
        exact alnum_ne_dash c h1 hc.1
      · intro _
        simp only [headNotB, isDash, Bool.not_eq_true', beq_eq_false_iff_ne, ne_eq]
        exact alnum_ne_dash c h1
    · rw [if_neg h1]
      cases flag with
      | true =>
        rw [if_pos rfl]
        refine ⟨(ih true).1, fun _ => ?_⟩
        exact (ih true).2 rfl
      | false =>
        rw [if_neg (show ¬(false = true) by simp)]
        constructor
        · rw [noDD, List.chain'_cons']
          refine ⟨?_, (ih true).1⟩
          intro y hy hc
          exact head_cond_of_headNotB ((ih true).2 rfl) y hy hc.2
        · intro habs
          exact absurd habs (by simp)

theorem subNonAlnum_id :
    ∀ (l : List Char) (flag : Bool), l.all okChar = true → noDD l →
      (flag = true → headNotB isDash l = true) → subNonAlnum flag l = l := by
  intro l
  induction l with
  | nil => intro flag _ _ _; rfl
  | cons c rest ih =>
    intro flag hall hdd hh
    simp only [List.all_cons, Bool.and_eq_true] at hall
    unfold subNonAlnum
    by_cases h1 : isLowerAlnum c = true
    · rw [if_pos h1]
      rw [ih false hall.2 (noDD_tail hdd) (fun habs => absurd habs (by simp))]
    · rw [if_neg h1]
      have hdash : c = '-' := by
        rcases Bool.or_eq_true_iff.mp (by simpa [okChar] using hall.1) with ha | hd
        · exact absurd ha h1
        · exact dash_of_isDash hd
      cases flag with
      | true =>
        exfalso
        have := hh rfl
        subst hdash
        simp [headNotB, isDash] at this
      | false =>
        rw [if_neg (show ¬(false = true) by simp)]
        subst hdash
        rw [ih true hall.2 (noDD_tail hdd)
          (fun _ => headNotB_of_noDD_dash hdd)]

/-! ## Collapse pass lemmas (`re.sub(r"-{2,}", "-", s)`) -/

theorem collapseDashes_id :
    ∀ (l : List Char) (flag : Bool), noDD l →
      (flag = true → headNotB isDash l = true) → collapseDashes flag l = l := by
  intro l
  induction l with
  | nil => intro flag _ _; rfl
  | cons c rest ih =>
    intro flag hdd hh
    unfold collapseDashes
    by_cases hc : isDash c = true
    · rw [if_pos hc]
      have hdash : c = '-' := dash_of_isDash hc
      cases flag with
      | true =>
        exfalso
        have := hh rfl
        subst hdash
        simp [headNotB, isDash] at this
      | false =>
        rw [if_neg (show ¬(false = true) by simp)]
        subst hdash
        rw [ih true (noDD_tail hdd) (fun _ => headNotB_of_noDD_dash hdd)]
    · rw [if_neg hc]
      rw [ih false (noDD_tail hdd) (fun habs => absurd habs (by simp))]

/-! ## Whitespace split lemmas -/

theorem splitWS_tokens :
    ∀ (l acc : List Char), (∀ c ∈ acc, isPySpace c = false) →
      ∀ t ∈ splitWSAux acc l, ∀ c ∈ t, (c ∈ acc ∨ c ∈ l) ∧ isPySpace c = false := by
  intro l
  induction l with
  | nil =>
    intro acc hacc t ht c hc
    unfold splitWSAux at ht
    split at ht
    · simp at ht
    · simp only [List.mem_singleton] at ht
      subst ht
      rw [List.mem_reverse] at hc
      exact ⟨Or.inl hc, hacc c hc⟩
  | cons a rest ih =>
    intro acc hacc t ht c hc
    unfold splitWSAux at ht
    by_cases ha : isPySpace a = true
    · rw [if_pos ha] at ht
      split at ht
      · have := ih [] (by simp) t ht c hc
        exact ⟨Or.inr (List.mem_cons_of_mem a (this.1.resolve_left (by simp))), this.2⟩
      · rcases List.mem_cons.mp ht with he | hm
        · subst he
          rw [List.mem_reverse] at hc
          exact ⟨Or.inl hc, hacc c hc⟩
        · have := ih [] (by simp) t hm c hc
          exact ⟨Or.inr (List.mem_cons_of_mem a (this.1.resolve_left (by simp))), this.2⟩
    · rw [if_neg ha] at ht
      have hacc2 : ∀ d ∈ a :: acc, isPySpace d = false := by
        intro d hd
        rcases List.mem_cons.mp hd with he | hm
        · subst he
          simpa using ha
        · exact hacc d hm
      have := ih (a :: acc) hacc2 t ht c hc
      refine ⟨?_, this.2⟩
      rcases this.1 with hm | hm
      · rcases List.mem_cons.mp hm with he | hm2
        · subst he
          exact Or.inr (List.mem_cons_self _ _)
        · exact Or.inl hm2
      · exact Or.inr (List.mem_cons_of_mem a hm)

theorem splitWS_all_nonspace :
    ∀ (l acc : List Char), l.all (fun c => !isPySpace c) = true →
      splitWSAux acc l =
        if (acc.reverse ++ l).isEmpty then [] else [acc.reverse ++ l] := by
  intro l
  induction l with
  | nil =>
    intro acc _
    unfold splitWSAux
    rw [List.append_nil]
    by_cases he : acc.isEmpty = true
    · rw [if_pos he, if_pos]
      rw [List.isEmpty_iff] at he ⊢
      simp [he]
    · rw [if_neg he, if_neg]
      rw [List.isEmpty_iff] at he ⊢
      simp [he]
  | cons a rest ih =>
    intro acc hall
    simp only [List.all_cons, Bool.and_eq_true, Bool.not_eq_true'] at hall
    unfold splitWSAux
    rw [if_neg (by rw [hall.1]; simp)]
    rw [ih (a :: acc) hall.2]
    have harr : (a :: acc).reverse ++ rest = acc.reverse ++ a :: rest := by
      simp [List.reverse_cons, List.append_assoc]
    rw [harr]

/-! ## Join lemmas -/

theorem mem_joinDash :
    ∀ {ts : List (List Char)} {c : Char}, c ∈ joinDash ts →
      c = '-' ∨ ∃ t ∈ ts, c ∈ t := by
  intro ts
  induction ts with
  | nil => intro c hc; simp [joinDash] at hc
  | cons t ts ih =>
    intro c hc
    cases ts with
    | nil =>
      right
      exact ⟨t, by simp, hc⟩
    | cons u us =>
      rw [show joinDash (t :: u :: us) = t ++ '-' :: joinDash (u :: us) from rfl] at hc
      rcases List.mem_append.mp hc with hl | hr
      · exact Or.inr ⟨t, by simp, hl⟩
      · rcases List.mem_cons.mp hr with he | hm
        · exact Or.inl he
        · rcases ih hm with hd | ⟨v, hv, hcv⟩
          · exact Or.inl hd
          · exact Or.inr ⟨v, List.mem_cons_of_mem t hv, hcv⟩

/-! ## Idempotence of the join-split slug -/

theorem joinSplit_chars (l : List Char) (c : Char)
    (hc : c ∈ joinSplitSlugCore l) :
    isPySpace c = false ∧ Char.toLower c = c := by
  unfold joinSplitSlugCore pySplitWS at hc
  rcases mem_joinDash hc with hdash | ⟨t, ht, hct⟩
  · subst hdash
    exact ⟨by decide, by decide⟩
  · have hfact := splitWS_tokens (stripBoth isPySpace (lowerL l)) [] (by simp) t ht c hct
    refine ⟨hfact.2, ?_⟩
    have hm : c ∈ stripBoth isPySpace (lowerL l) := hfact.1.resolve_left (by simp)
    have hm2 : c ∈ lowerL l := mem_stripBoth_sub _ hm
    unfold lowerL at hm2
    rcases List.mem_map.mp hm2 with ⟨d, _, hd⟩
    rw [← hd]
    exact toLower_idem d

theorem joinSplit_idem_core (l : List Char) :
    joinSplitSlugCore (joinSplitSlugCore l) = joinSplitSlugCore l := by
  have hchars := joinSplit_chars l
  set v := joinSplitSlugCore l with hv
  have h1 : lowerL v = v := by
    unfold lowerL
    rw [List.map_congr_left (g := id) (fun c hc => (hchars c hc).2), List.map_id]
  have hall : v.all (fun c => !isPySpace c) = true := by
    rw [List.all_eq_true]
    intro c hc
    simp [(hchars c hc).1]
  have h2 : stripBoth isPySpace v = v := stripBoth_id_of_all _ _ hall
  show joinDash (pySplitWS (stripBoth isPySpace (lowerL v))) = v
  rw [h1, h2]
  unfold pySplitWS
  rw [splitWS_all_nonspace v [] hall]
  simp only [List.reverse_nil, List.nil_append]
  by_cases hvnil : v.isEmpty = true
  · rw [if_pos hvnil]
    rw [List.isEmpty_iff] at hvnil
    rw [hvnil]
    rfl
  · rw [if_neg hvnil]
    rfl

/-! ## Head preservation through trailing strips -/

theorem dropTrail_append (q : Char → Bool) (l : List Char) :
    dropTrail q l ++ (l.reverse.takeWhile q).reverse = l := by
  unfold dropTrail
  rw [← List.reverse_append, List.takeWhile_append_dropWhile, List.reverse_reverse]

theorem headNotB_dropTrail (p q : Char → Bool) (l : List Char)
    (h : headNotB p l = true) : headNotB p (dropTrail q l) = true := by
  cases hdt : dropTrail q l with
  | nil => rfl
  | cons a t =>
    have hsplit := dropTrail_append q l
    rw [hdt] at hsplit
    rw [← hsplit] at h
    exact h

theorem headNotB_reverse_dropTrail (q : Char → Bool) (l : List Char) :
    headNotB q (dropTrail q l).reverse = true := by
  unfold dropTrail
  rw [List.reverse_reverse]
  exact headNotB_dropWhile q l.reverse

/-! ## Idempotence and non-emptiness of the image slug -/

theorem imageSlugCore_eq (l : List Char) :
    imageSlugCore l =
      if (stripBoth isDash (collapseDashes false
            (subNonAlnum false (stripBoth isPySpace (lowerL l))))).isEmpty
      then ("item").data
      else stripBoth isDash (collapseDashes false
            (subNonAlnum false (stripBoth isPySpace (lowerL l)))) := rfl

theorem imageSlug_v_facts (l : List Char) :
    (stripBoth isDash (subNonAlnum false l)).all okChar = true ∧
      noDD (stripBoth isDash (subNonAlnum false l)) ∧
      headNotB isDash (stripBoth isDash (subNonAlnum false l)) = true ∧
      headNotB isDash (stripBoth isDash (subNonAlnum false l)).reverse = true := by
  refine ⟨all_stripBoth _ _ _ (subNonAlnum_all_ok l false),
    noDD_stripBoth _ _ (subNonAlnum_noDD_head l false).1, ?_, ?_⟩
  · unfold stripBoth
    apply headNotB_dropTrail
    exact headNotB_dropWhile isDash _
  · unfold stripBoth
    exact headNotB_reverse_dropTrail isDash _

theorem collapse_after_sub (l : List Char) :
    collapseDashes false (subNonAlnum false l) = subNonAlnum false l :=
  collapseDashes_id _ false (subNonAlnum_noDD_head l false).1
    (fun habs => absurd habs (by simp))

theorem imageSlugCore_idem (l : List Char) :
    imageSlugCore (imageSlugCore l) = imageSlugCore l := by
  rw [imageSlugCore_eq l]
  set t := stripBoth isPySpace (lowerL l) with hts
  rw [collapse_after_sub t]
  set v := stripBoth isDash (subNonAlnum false t) with hvs
  obtain ⟨va, vd, vh, vrh⟩ := imageSlug_v_facts t
  rw [← hvs] at va vd vh vrh
  by_cases he : v.isEmpty = true
  · rw [if_pos he]
    decide
  · rw [if_neg he]
    have h1 : lowerL v = v := by
      unfold lowerL
      rw [List.map_congr_left (g := id)
        (fun c hc => ok_toLower_fix c (List.all_eq_true.mp va c hc)), List.map_id]
    have h2 : stripBoth isPySpace v = v := by
      apply stripBoth_id_of_all
      rw [List.all_eq_true]
      intro c hc
      simp [ok_not_space c (List.all_eq_true.mp va c hc)]
    have h3 : subNonAlnum false v = v :=
      subNonAlnum_id v false va vd (fun habs => absurd habs (by simp))
    have h4 : collapseDashes false v = v :=
      collapseDashes_id v false vd (fun habs => absurd habs (by simp))
    have h5 : stripBoth isDash v = v := stripBoth_id_of_ends _ _ vh vrh
    rw [imageSlugCore_eq v, h1, h2, h3, h4, h5, if_neg he]

theorem imageSlugCore_ne_nil (l : List Char) : imageSlugCore l ≠ [] := by
  rw [imageSlugCore_eq l]
  split
  · decide
  · next he =>
    intro hnil
    rw [hnil] at he
    exact he rfl

/-! ## Claim C1 -/

/-- Claim C1 counterexample: the slug of the Schema Normalizer
(`ecom_agents.build_shopify_csv`) and the slug of the image-mapping stage
(`image_seo_prep.slug`) disagree on the title `"A.B"`: the former keeps the
dot (`"a.b"`), the latter maps it to a hyphen (`"a-b"`), so the three
handle derivations are not equal as functions of the title. -/
theorem slug_stages_differ_cex :
    EcomAgents.slug ("A.B") ≠ ImageSeoPrep.slug ("A.B") := by
  decide

/-- Claim C1 (amended): the slug of the Schema Normalizer
(`ecom_agents.build_shopify_csv`) and the slug of the Variant Expander
(`pod_variants_builder`) are equal as functions of the title; the
image-mapping stage's `slug` helper is a different function. -/
theorem slug_normalizer_expander_agree (s : String) :
    EcomAgents.slug s = PodVariantsBuilder.slug s := rfl

/-! ## Claim C6 -/

/-- Claim C6 counterexample: the join-split slug used by the Schema
Normalizer returns the empty string on the empty title, so slugification is
not "never empty" for each slug implementation used by the pipeline. -/
theorem slug_empty_cex : EcomAgents.slug ("") = ("") := rfl

/-- Claim C6 (amended): both slug implementations cited by the claim are
idempotent, and the image-mapping stage's slug never returns the empty
string (it falls back to the literal `"item"`); the join-split slug of
`ecom_agents`/`pod_variants_builder` has no such fallback and can return
the empty string. -/
theorem slug_idempotent (s : String) :
    EcomAgents.slug (EcomAgents.slug s) = EcomAgents.slug s ∧
    ImageSeoPrep.slug (ImageSeoPrep.slug s) = ImageSeoPrep.slug s ∧
    ImageSeoPrep.slug s ≠ ("") := by
  refine ⟨?_, ?_, ?_⟩
  · show String.mk (joinSplitSlugCore (String.mk (joinSplitSlugCore s.data)).data) =
      String.mk (joinSplitSlugCore s.data)
    exact congrArg String.mk (joinSplit_idem_core s.data)
  · show String.mk (imageSlugCore (String.mk (imageSlugCore s.data)).data) =
      String.mk (imageSlugCore s.data)
    exact congrArg String.mk (imageSlugCore_idem s.data)
  · intro h
    exact imageSlugCore_ne_nil s.data (congrArg String.data h)

/-! ## Budget guard lemmas -/

theorem check_and_book_total_est (b : BudgetGuard) (calls : Nat) :
    ((EcomAgents.check_and_book b calls).1).total = b.total ∧
      ((EcomAgents.check_and_book b calls).1).est = b.est := by
  unfold EcomAgents.check_and_book
  split <;> exact ⟨rfl, rfl⟩

theorem check_and_book_spent_mono (b : BudgetGuard) (calls : Nat)
    (hest : 0 ≤ b.est) :
    b.spent ≤ ((EcomAgents.check_and_book b calls).1).spent := by
  unfold EcomAgents.check_and_book
  split
  · exact le_refl _
  · show b.spent ≤ b.spent + b.est * calls
    have : 0 ≤ b.est * calls := mul_nonneg hest (by positivity)
    linarith

theorem check_and_book_spent_le (b : BudgetGuard) (calls : Nat)
    (hinv : b.spent ≤ b.total) :
    ((EcomAgents.check_and_book b calls).1).spent ≤ b.total := by
  unfold EcomAgents.check_and_book
  split
  · exact hinv
  · next h =>
    push_neg at h
    exact h

theorem bookSeq_total_est :
    ∀ (cs : List Nat) (b : BudgetGuard),
      (bookSeq b cs).total = b.total ∧ (bookSeq b cs).est = b.est := by
  intro cs
  induction cs with
  | nil => intro b; exact ⟨rfl, rfl⟩
  | cons n rest ih =>
    intro b
    constructor
    · show (bookSeq (EcomAgents.check_and_book b n).1 rest).total = b.total
      rw [(ih _).1, (check_and_book_total_est b n).1]
    · show (bookSeq (EcomAgents.check_and_book b n).1 rest).est = b.est
      rw [(ih _).2, (check_and_book_total_est b n).2]

theorem bookSeq_spent_mono :
    ∀ (cs : List Nat) (b : BudgetGuard), 0 ≤ b.est →
      b.spent ≤ (bookSeq b cs).spent := by
  intro cs
  induction cs with
  | nil => intro b _; exact le_refl _
  | cons n rest ih =>
    intro b hest
    calc b.spent ≤ ((EcomAgents.check_and_book b n).1).spent :=
          check_and_book_spent_mono b n hest
      _ ≤ (bookSeq (EcomAgents.check_and_book b n).1 rest).spent :=
          ih _ (by rw [(check_and_book_total_est b n).2]; exact hest)

theorem bookSeq_spent_le :
    ∀ (cs : List Nat) (b : BudgetGuard), b.spent ≤ b.total →
      (bookSeq b cs).spent ≤ b.total := by
  intro cs
  induction cs with
  | nil => intro b h; exact h
  | cons n rest ih =>
    intro b hinv
    show (bookSeq (EcomAgents.check_and_book b n).1 rest).spent ≤ b.total
    rw [← (check_and_book_total_est b n).1]
    exact ih _ (by
      rw [(check_and_book_total_est b n).1]
      exact check_and_book_spent_le b n hinv)

/-! ## Claim C2 -/

/-- Claim C2: the Budget Guard's reservation computes
`projected = spent + est * calls`; on rejection the state is unchanged and
`projected` exceeded the ceiling, on success `spent` becomes `projected`
and stays within the ceiling; over any sequence of reservations `spent` is
monotone, never exceeds the ceiling (hence never exceeds it by more than
one call's estimate), and once a single call would exceed the ceiling every
further reservation of at least one call is rejected.  The seeding stage's
`book` is the same operation. -/
theorem budget_guard_reservation (b : BudgetGuard) (calls : Nat)
    (cs : List Nat) (hest : 0 ≤ b.est) (hinv : b.spent ≤ b.total)
    (hcalls : 1 ≤ calls) :
    (∀ n, SeedFromKit.book b n = EcomAgents.check_and_book b n) ∧
    ((EcomAgents.check_and_book b calls).2 = true →
      (EcomAgents.check_and_book b calls).1 = b ∧
        b.total < b.spent + b.est * calls) ∧
    ((EcomAgents.check_and_book b calls).2 = false →
      ((EcomAgents.check_and_book b calls).1).spent = b.spent + b.est * calls ∧
        b.spent + b.est * calls ≤ b.total) ∧
    b.spent ≤ (bookSeq b cs).spent ∧
    (bookSeq b cs).spent ≤ b.total ∧
    (bookSeq b cs).spent ≤ b.total + b.est ∧
    (b.total < b.spent + b.est →
      (EcomAgents.check_and_book (bookSeq b cs) calls).2 = true) := by
  refine ⟨fun n => rfl, ?_, ?_, bookSeq_spent_mono cs b hest,
    bookSeq_spent_le cs b hinv, ?_, ?_⟩
  · intro hrej
    unfold EcomAgents.check_and_book at hrej ⊢
    by_cases h : b.total < b.spent + b.est * calls
    · rw [if_pos h]
      exact ⟨rfl, h⟩
    · rw [if_neg h] at hrej
      simp at hrej
  · intro hok
    unfold EcomAgents.check_and_book at hok ⊢
    by_cases h : b.total < b.spent + b.est * calls
    · rw [if_pos h] at hok
      simp at hok
    · rw [if_neg h]
      push_neg at h
      exact ⟨rfl, h⟩
  · calc (bookSeq b cs).spent ≤ b.total := bookSeq_spent_le cs b hinv
      _ ≤ b.total + b.est := by linarith
  · intro hexc
    have hcond : (bookSeq b cs).total <
        (bookSeq b cs).spent + (bookSeq b cs).est * calls := by
      rw [(bookSeq_total_est cs b).1, (bookSeq_total_est cs b).2]
      have h1 : b.spent ≤ (bookSeq b cs).spent := bookSeq_spent_mono cs b hest
      have h2 : b.est * 1 ≤ b.est * calls := by
        apply mul_le_mul_of_nonneg_left _ hest
        exact_mod_cast hcalls
      rw [mul_one] at h2
      linarith
    unfold EcomAgents.check_and_book
    rw [if_pos hcond]

/-- Claim C2 witness: a run with the default cap 10.0 and estimate 0.01,
two one-call reservations, stays within the ceiling. -/
theorem budget_guard_reservation_witness :
    (bookSeq okBudget [1, 1]).spent ≤ okBudget.total :=
  (budget_guard_reservation okBudget 1 [1, 1] (by norm_num [okBudget])
    (by norm_num [okBudget]) (le_refl 1)).2.2.2.2.1

/-! ## Row enrichment lemmas -/

theorem processRow_none (b : BudgetGuard) (r : CopyRow) (vendor : String) :
    (EcomAgents.processRow b r none vendor).2 = EcomAgents.fallbackRow r vendor := by
  unfold EcomAgents.processRow EcomAgents.llm_json_step
  cases h : (EcomAgents.check_and_book b 1).2 <;> simp [h]

theorem gen_copy_all_fail (vendor : String) :
    ∀ (batch : List (CopyRow × Option LLMData)) (b : BudgetGuard),
      (∀ p ∈ batch, p.2 = none) →
      (EcomAgents.generate_product_copy b vendor batch).2 =
        batch.map (fun p => EcomAgents.fallbackRow p.1 vendor) := by
  intro batch
  induction batch with
  | nil => intro b _; rfl
  | cons p rest ih =>
    intro b hfail
    have hp : p.2 = none := hfail p (List.mem_cons_self _ _)
    show (EcomAgents.processRow b p.1 p.2 vendor).2 ::
        (EcomAgents.generate_product_copy
          (EcomAgents.processRow b p.1 p.2 vendor).1 vendor rest).2 = _
    rw [hp, processRow_none,
      ih _ (fun q hq => hfail q (List.mem_cons_of_mem p hq))]
    rfl

/-! ## Claim C3 -/

/-- Claim C3: when every gateway call fails, Row Enrichment still produces
exactly one output row per input row, and each output row is the
deterministic fallback: original title truncated to 70 characters, original
tags, and the fixed Highlights/Details/Shipping template with one bullet
per non-blank comma-separated feature. -/
theorem row_enrichment_fallback (b : BudgetGuard) (vendor : String)
    (batch : List (CopyRow × Option LLMData))
    (hfail : ∀ p ∈ batch, p.2 = none) :
    ((EcomAgents.generate_product_copy b vendor batch).2).length = batch.length ∧
    (EcomAgents.generate_product_copy b vendor batch).2 =
      batch.map (fun p => EcomAgents.fallbackRow p.1 vendor) ∧
    (∀ r : CopyRow,
      (EcomAgents.fallbackRow r vendor).title = pySlice 70 r.title ∧
      (EcomAgents.fallbackRow r vendor).tags = r.tags ∧
      (EcomAgents.fallbackRow r vendor).bodyHtml =
        ("<h3>Highlights</h3><ul>") ++ EcomAgents.bulletList r.features ++
          ("</ul><h3>Details</h3><p>") ++ r.materials ++
          ("</p><h3>Shipping & Returns</h3><p>30-day returns. Tracked shipping.</p>")) := by
  have hmap := gen_copy_all_fail vendor batch b hfail
  exact ⟨by rw [hmap, List.length_map], hmap, fun r => ⟨rfl, rfl, rfl⟩⟩

/-- Claim C3 witness: the scaffolded sample row with a failing gateway
yields exactly one fallback output row. -/
theorem row_enrichment_fallback_witness :
    ((EcomAgents.generate_product_copy okBudget ("Aceru Studio")
      [(sampleRow, none)]).2).length = 1 :=
  (row_enrichment_fallback okBudget ("Aceru Studio") [(sampleRow, none)]
    (by simp)).1

/-! ## Claim C4 -/

/-- Claim C4 counterexample: with the spend ceiling already unreachable the
Budget Guard rejects the reservation (`llm_json` raises), yet
`generate_product_copy` does not abort: the bare `except Exception` of the
row loop swallows the budget error and emits the heuristic fallback row,
even though the gateway itself would have succeeded. -/
theorem enrichment_budget_not_fatal_cex :
    (EcomAgents.llm_json_step cexBudget (some sampleLLM)).2 =
      Except.error CallErr.budgetExceeded ∧
    (EcomAgents.generate_product_copy cexBudget ("Aceru Studio")
      [(sampleRow, some sampleLLM)]).2 =
      [EcomAgents.fallbackRow sampleRow ("Aceru Studio")] := by
  have hb : EcomAgents.check_and_book cexBudget 1 = (cexBudget, true) := by
    unfold EcomAgents.check_and_book
    rw [if_pos (by norm_num [cexBudget])]
  have hstep : EcomAgents.llm_json_step cexBudget (some sampleLLM) =
      (cexBudget, Except.error CallErr.budgetExceeded) := by
    simp [EcomAgents.llm_json_step, hb]
  constructor
  · rw [hstep]
  · show (EcomAgents.processRow cexBudget sampleRow (some sampleLLM)
        ("Aceru Studio")).2 ::
      (EcomAgents.generate_product_copy
        (EcomAgents.processRow cexBudget sampleRow (some sampleLLM)
          ("Aceru Studio")).1 ("Aceru Studio") []).2 = _
    simp only [EcomAgents.processRow, hstep]
    rfl

/-- Claim C4 (amended): inside Row Enrichment a Budget Guard rejection is a
per-row recoverable failure: the `except Exception` handler catches it, the
row degrades to the heuristic fallback with the budget state unchanged, and
the rest of the batch proceeds.  (Only outside this stage does the
exception propagate and abort the invocation.) -/
theorem enrichment_budget_rejection_degrades (b : BudgetGuard) (r : CopyRow)
    (resp : Option LLMData) (vendor : String)
    (rest : List (CopyRow × Option LLMData))
    (hrej : (EcomAgents.check_and_book b 1).2 = true) :
    EcomAgents.processRow b r resp vendor = (b, EcomAgents.fallbackRow r vendor) ∧
    (EcomAgents.generate_product_copy b vendor ((r, resp) :: rest)).2 =
      EcomAgents.fallbackRow r vendor ::
        (EcomAgents.generate_product_copy b vendor rest).2 := by
  have hstep : EcomAgents.llm_json_step b resp =
      (b, Except.error CallErr.budgetExceeded) := by
    unfold EcomAgents.llm_json_step
    rw [if_pos hrej]
  have hproc : EcomAgents.processRow b r resp vendor =
      (b, EcomAgents.fallbackRow r vendor) := by
    unfold EcomAgents.processRow
    rw [hstep]
  refine ⟨hproc, ?_⟩
  show (EcomAgents.processRow b r resp vendor).2 ::
      (EcomAgents.generate_product_copy
        (EcomAgents.processRow b r resp vendor).1 vendor rest).2 = _
  rw [hproc]

/-- Claim C4 witness: a rejected reservation in a concrete exhausted budget
state degrades the concrete sample row to its fallback. -/
theorem enrichment_budget_rejection_degrades_witness :
    EcomAgents.processRow cexBudget sampleRow (some sampleLLM) ("Aceru Studio") =
      (cexBudget, EcomAgents.fallbackRow sampleRow ("Aceru Studio")) :=
  (enrichment_budget_rejection_degrades cexBudget sampleRow (some sampleLLM)
    ("Aceru Studio") [] (by simp [EcomAgents.check_and_book, cexBudget])).1

/-! ## Variant expander lemmas -/

theorem mapIdx_eq_map_of_const {α β : Type} :
    ∀ (l : List α) (g : Nat → α → β) (f : α → β), (∀ i a, g i a = f a) →
      l.mapIdx g = l.map f := by
  intro l
  induction l with
  | nil => intro g f _; rfl
  | cons a t ih =>
    intro g f hg
    rw [List.mapIdx_cons, hg 0 a,
      ih (fun i x => g (i + 1) x) f (fun i x => hg (i + 1) x)]
    rfl

theorem expandRowGo_false_map (base : PodVariantsBuilder.BaseRow) :
    ∀ pairs : List (String × String),
      PodVariantsBuilder.expandRowGo base false pairs =
        pairs.map (fun p => PodVariantsBuilder.mkPodRow base p.1 p.2 false) := by
  intro pairs
  induction pairs with
  | nil => rfl
  | cons p rest ih =>
    show PodVariantsBuilder.mkPodRow base p.1 p.2 false ::
      PodVariantsBuilder.expandRowGo base false rest = _
    rw [ih]
    rfl

theorem expandRow_eq_mapIdx (base : PodVariantsBuilder.BaseRow)
    (colors sizes : List String) :
    PodVariantsBuilder.expandRow base colors sizes =
      (PodVariantsBuilder.prodPairs colors sizes).mapIdx
        (fun i p => PodVariantsBuilder.mkPodRow base p.1 p.2 (i == 0)) := by
  unfold PodVariantsBuilder.expandRow
  cases hp : PodVariantsBuilder.prodPairs colors sizes with
  | nil => rfl
  | cons p rest =>
    show PodVariantsBuilder.mkPodRow base p.1 p.2 true ::
      PodVariantsBuilder.expandRowGo base false rest = _
    rw [List.mapIdx_cons, expandRowGo_false_map base rest,
      mapIdx_eq_map_of_const rest
        (fun i p => PodVariantsBuilder.mkPodRow base p.1 p.2 ((i + 1) == 0))
        (fun p => PodVariantsBuilder.mkPodRow base p.1 p.2 false)
        (fun i a => by simp)]
    rfl

theorem expandRowGo_length (base : PodVariantsBuilder.BaseRow) :
    ∀ (pairs : List (String × String)) (flag : Bool),
      (PodVariantsBuilder.expandRowGo base flag pairs).length = pairs.length := by
  intro pairs
  induction pairs with
  | nil => intro flag; rfl
  | cons p rest ih =>
    intro flag
    show (PodVariantsBuilder.mkPodRow base p.1 p.2 flag ::
      PodVariantsBuilder.expandRowGo base false rest).length = _
    rw [List.length_cons, ih false]
    rfl

theorem prodPairs_length (colors sizes : List String) :
    (PodVariantsBuilder.prodPairs colors sizes).length =
      colors.length * sizes.length := by
  induction colors with
  | nil => simp [PodVariantsBuilder.prodPairs]
  | cons c cs ih =>
    unfold PodVariantsBuilder.prodPairs at ih ⊢
    rw [List.flatMap_cons, List.length_append, List.length_map, ih,
      List.length_cons]
    ring

theorem expandRowGo_map_sku (base : PodVariantsBuilder.BaseRow) :
    ∀ (pairs : List (String × String)) (flag : Bool),
      (PodVariantsBuilder.expandRowGo base flag pairs).map
          (fun row => row.variantSKU) =
        pairs.map (fun p => PodVariantsBuilder.skuOf p.1 p.2) := by
  intro pairs
  induction pairs with
  | nil => intro flag; rfl
  | cons p rest ih =>
    intro flag
    show (PodVariantsBuilder.mkPodRow base p.1 p.2 flag ::
      PodVariantsBuilder.expandRowGo base false rest).map _ = _
    rw [List.map_cons, ih false]
    rfl

/-! ## Claim C5 -/

/-- Claim C5 counterexample: in the Variant Expander's output for a base
row, the second emitted row (a subsequent row) carries the literal
`"active"` in its `Status` column, not the empty string, so subsequent
rows do not carry the empty string in all shared fields. -/
theorem variant_shared_fields_cex :
    ((PodVariantsBuilder.expandRow cexBase PodVariantsBuilder.COLORS
        PodVariantsBuilder.SIZES).map (fun row => row.status)).getD 1 ("") =
      ("active") ∧ (("active") : String) ≠ ("") := by
  constructor
  · rfl
  · decide

/-- Claim C5 (amended): for every base row, only the first emitted variant
row carries handle, title, body, vendor, type, tags, published and the SEO
fields populated; every subsequent row carries the empty string in those
fields — except `Status`, which is the literal `"active"` on every
subsequent row — while every row always carries its own option values,
SKU, and per-size price. -/
theorem variant_shared_fields (base : PodVariantsBuilder.BaseRow)
    (colors sizes : List String) :
    PodVariantsBuilder.expandRow base colors sizes =
      (PodVariantsBuilder.prodPairs colors sizes).mapIdx
        (fun i p => PodVariantsBuilder.mkPodRow base p.1 p.2 (i == 0)) ∧
    (∀ c s : String,
      (PodVariantsBuilder.mkPodRow base c s false).handle = ("") ∧
      (PodVariantsBuilder.mkPodRow base c s false).title = ("") ∧
      (PodVariantsBuilder.mkPodRow base c s false).bodyHtml = ("") ∧
      (PodVariantsBuilder.mkPodRow base c s false).vendor = ("") ∧
      (PodVariantsBuilder.mkPodRow base c s false).typ = ("") ∧
      (PodVariantsBuilder.mkPodRow base c s false).tags = ("") ∧
      (PodVariantsBuilder.mkPodRow base c s false).published =
        PodVariantsBuilder.PyVal.str ("") ∧
      (PodVariantsBuilder.mkPodRow base c s false).seoTitle = ("") ∧
      (PodVariantsBuilder.mkPodRow base c s false).seoDescription = ("") ∧
      (PodVariantsBuilder.mkPodRow base c s false).status = ("active") ∧
      (PodVariantsBuilder.mkPodRow base c s false).option1Value = c ∧
      (PodVariantsBuilder.mkPodRow base c s false).option2Value = s ∧
      (PodVariantsBuilder.mkPodRow base c s false).variantSKU =
        PodVariantsBuilder.skuOf c s ∧
      (PodVariantsBuilder.mkPodRow base c s false).variantPrice =
        (PodVariantsBuilder.PRICE_BY_SIZE s).getD base.variantPrice) ∧
    (∀ c s : String,
      (PodVariantsBuilder.mkPodRow base c s true).handle =
        PodVariantsBuilder.slug base.title ∧
      (PodVariantsBuilder.mkPodRow base c s true).title = base.title ∧
      (PodVariantsBuilder.mkPodRow base c s true).bodyHtml = base.body ∧
      (PodVariantsBuilder.mkPodRow base c s true).vendor = base.vendor ∧
      (PodVariantsBuilder.mkPodRow base c s true).tags = base.tags ∧
      (PodVariantsBuilder.mkPodRow base c s true).published =
        PodVariantsBuilder.PyVal.pybool true ∧
      (PodVariantsBuilder.mkPodRow base c s true).status = base.status) :=
  ⟨expandRow_eq_mapIdx base colors sizes,
    fun _ _ => ⟨rfl, rfl, rfl, rfl, rfl, rfl, rfl, rfl, rfl, rfl, rfl, rfl,
      rfl, rfl⟩,
    fun _ _ => ⟨rfl, rfl, rfl, rfl, rfl, rfl, rfl⟩⟩

/-! ## Claim C7 -/

/-- Claim C7: for every base row the Variant Expander emits exactly
`|colors| * |sizes|` rows, color-major then size-minor, each SKU being the
configured prefix, a hyphen, the uppercased first letter of the color, and
the size token; in particular the scenario base row with colors
`[black, white]` and sizes `[S, M]` yields exactly 4 rows with SKUs
`TEE-BS, TEE-BM, TEE-WS, TEE-WM` in that order, and only the first row has
a non-empty Title. -/
theorem variant_cartesian_product (base : PodVariantsBuilder.BaseRow)
    (colors sizes : List String) :
    (PodVariantsBuilder.expandRow base colors sizes).length =
      colors.length * sizes.length ∧
    (PodVariantsBuilder.expandRow base colors sizes).map
        (fun row => row.variantSKU) =
      colors.flatMap (fun c => sizes.map (fun s =>
        PodVariantsBuilder.SKU_PREFIX ++ ("-") ++
          pyUpper (pySlice 1 c) ++ s)) ∧
    (PodVariantsBuilder.expandRow mdmBase [("black"), ("white")]
        [("S"), ("M")]).length = 4 ∧
    (PodVariantsBuilder.expandRow mdmBase [("black"), ("white")]
        [("S"), ("M")]).map (fun row => row.variantSKU) =
      [("TEE-BS"), ("TEE-BM"), ("TEE-WS"), ("TEE-WM")] ∧
    (PodVariantsBuilder.expandRow mdmBase [("black"), ("white")]
        [("S"), ("M")]).map (fun row => row.title) =
      [("Minimalist Desk Mat"), (""), (""), ("")] := by
  refine ⟨?_, ?_, by decide, by decide, by decide⟩
  · show (PodVariantsBuilder.expandRowGo base true _).length = _
    rw [expandRowGo_length base _ true, prodPairs_length]
  · show (PodVariantsBuilder.expandRowGo base true _).map _ = _
    rw [expandRowGo_map_sku base _ true]
    unfold PodVariantsBuilder.prodPairs
    rw [List.map_flatMap]
    simp only [PodVariantsBuilder.skuOf, List.map_map]
    have hfun : (fun a : String =>
        List.map ((fun p : String × String =>
            PodVariantsBuilder.SKU_PREFIX ++ ("-") ++ pyUpper (pySlice 1 p.1) ++ p.2) ∘
          fun s => (a, s)) sizes) =
        (fun c : String => List.map (fun s =>
          PodVariantsBuilder.SKU_PREFIX ++ ("-") ++ pyUpper (pySlice 1 c) ++ s) sizes) := by
      funext c
      exact List.map_congr_left fun s _ => rfl
    rw [hfun]

/-! ## Claim C10 -/

/-- Claim C10: each variant SKU depends only on the fixed prefix and the
(color, size) pair — never on the base row — so any two base rows in the
same run emit identical SKU sequences, and any batch of two or more base
products contains duplicate SKUs across products. -/
theorem variant_sku_independent_of_row :
    (∀ (r1 r2 : PodVariantsBuilder.BaseRow) (colors sizes : List String),
      (PodVariantsBuilder.expandRow r1 colors sizes).map
          (fun row => row.variantSKU) =
        (PodVariantsBuilder.expandRow r2 colors sizes).map
          (fun row => row.variantSKU)) ∧
    (∀ (r1 r2 : PodVariantsBuilder.BaseRow)
        (rest : List PodVariantsBuilder.BaseRow),
      ¬ ((PodVariantsBuilder.podMain (r1 :: r2 :: rest)).map
          (fun row => row.variantSKU)).Nodup) := by
  have hm : ∀ (r : PodVariantsBuilder.BaseRow) (colors sizes : List String),
      (PodVariantsBuilder.expandRow r colors sizes).map
          (fun row => row.variantSKU) =
        (PodVariantsBuilder.prodPairs colors sizes).map
          (fun p => PodVariantsBuilder.skuOf p.1 p.2) :=
    fun r colors sizes => expandRowGo_map_sku r _ true
  constructor
  · intro r1 r2 colors sizes
    rw [hm, hm]
  · intro r1 r2 rest h
    unfold PodVariantsBuilder.podMain at h
    rw [List.flatMap_cons, List.map_append] at h
    have hdisj := (List.nodup_append.mp h).2.2
    have hmem1 : ("TEE-BS") ∈
        (PodVariantsBuilder.expandRow r1 PodVariantsBuilder.COLORS
          PodVariantsBuilder.SIZES).map (fun row => row.variantSKU) := by
      rw [hm]
      decide
    have hmem2 : ("TEE-BS") ∈
        ((r2 :: rest).flatMap (fun b => PodVariantsBuilder.expandRow b
          PodVariantsBuilder.COLORS PodVariantsBuilder.SIZES)).map
          (fun row => row.variantSKU) := by
      rw [List.flatMap_cons, List.map_append]
      apply List.mem_append_left
      rw [hm]
      decide
    exact hdisj hmem1 hmem2

/-! ## Claim C8 -/

/-- Claim C8: the Merge/Join stage outputs exactly `P + I` rows: every
product row first, in input order, unchanged over its original columns and
extended with the missing image columns defaulted to empty; then every
image row, in input order, with only Handle and the image columns
populated from the image record and every other column empty. -/
theorem merge_stage_shape (prodCols : List String)
    (prodRows : List (String → String)) (imgRows : List MergeImages.ImgRow)
    (out : List (List (String × String)))
    (h : MergeImages.mergeMain prodCols prodRows imgRows = some out) :
    out.length = prodRows.length + imgRows.length ∧
    out = prodRows.map (MergeImages.prodOutRow prodCols
        (MergeImages.outColsOf prodCols)) ++
      imgRows.map (MergeImages.imgOutRow (MergeImages.outColsOf prodCols)) ∧
    (∀ r, MergeImages.prodOutRow prodCols (MergeImages.outColsOf prodCols) r =
      prodCols.map (fun c => (c, r c)) ++
        ([("Image Src"), ("Image Alt Text"), ("Image Position")].filter
          (fun c => ¬ c ∈ prodCols)).map (fun c => (c, ("")))) ∧
    (∀ (ir : MergeImages.ImgRow) (c v : String),
      (c, v) ∈ MergeImages.imgOutRow (MergeImages.outColsOf prodCols) ir →
      c ≠ ("Handle") → c ≠ ("Image Src") → c ≠ ("Image Alt Text") →
      c ≠ ("Image Position") → v = ("")) ∧
    (∀ ir : MergeImages.ImgRow,
      (("Handle"), ir.handle) ∈
        MergeImages.imgOutRow (MergeImages.outColsOf prodCols) ir ∧
      (("Image Src"), ir.src) ∈
        MergeImages.imgOutRow (MergeImages.outColsOf prodCols) ir ∧
      (("Image Alt Text"), ir.alt) ∈
        MergeImages.imgOutRow (MergeImages.outColsOf prodCols) ir ∧
      (("Image Position"), ir.pos) ∈
        MergeImages.imgOutRow (MergeImages.outColsOf prodCols) ir) := by
  unfold MergeImages.mergeMain at h
  split at h
  case isFalse => exact absurd h (by simp)
  case isTrue hall =>
    have hout : out = prodRows.map (MergeImages.prodOutRow prodCols
        (MergeImages.outColsOf prodCols)) ++
      imgRows.map (MergeImages.imgOutRow (MergeImages.outColsOf prodCols)) :=
      (Option.some.inj h).symm
    have hhandle : ("Handle") ∈ prodCols := by
      have := List.all_eq_true.mp hall ("Handle") (by simp [MergeImages.REQUIRED_PRODUCT_COLS])
      exact of_decide_eq_true this
    have hmemo : ∀ c : String, c ∈ [("Image Src"), ("Image Alt Text"),
        ("Image Position")] → c ∈ MergeImages.outColsOf prodCols := by
      intro c hc
      unfold MergeImages.outColsOf
      by_cases hp : c ∈ prodCols
      · exact List.mem_append_left _ hp
      · exact List.mem_append_right _ (List.mem_filter.mpr ⟨hc, by simpa using hp⟩)
    refine ⟨by rw [hout]; simp, hout, ?_, ?_, ?_⟩
    · intro r
      unfold MergeImages.prodOutRow MergeImages.outColsOf
      rw [List.map_append]
      congr 1
      · exact List.map_congr_left (fun c hc => by rw [if_pos hc])
      · apply List.map_congr_left
        intro c hc
        have := (List.mem_filter.mp hc).2
        rw [if_neg (by simpa using this)]
    · intro ir c v hmem hne1 hne2 hne3 hne4
      unfold MergeImages.imgOutRow at hmem
      rcases List.mem_map.mp hmem with ⟨c2, _, heq⟩
      rw [Prod.mk.injEq] at heq
      obtain ⟨hc, hv⟩ := heq
      subst hc
      subst hv
      rw [if_neg hne1, if_neg hne2, if_neg hne3, if_neg hne4]
    · intro ir
      have hh2 : ("Handle") ∈ MergeImages.outColsOf prodCols := by
        unfold MergeImages.outColsOf
        exact List.mem_append_left _ hhandle
      refine ⟨?_, ?_, ?_, ?_⟩
      · apply List.mem_map.mpr
        refine ⟨("Handle"), hh2, ?_⟩
        rw [if_pos rfl]
      · apply List.mem_map.mpr
        refine ⟨("Image Src"), hmemo _ (by simp), ?_⟩
        rw [if_neg (by decide), if_pos rfl]
      · apply List.mem_map.mpr
        refine ⟨("Image Alt Text"), hmemo _ (by simp), ?_⟩
        rw [if_neg (by decide), if_neg (by decide), if_pos rfl]
      · apply List.mem_map.mpr
        refine ⟨("Image Position"), hmemo _ (by simp), ?_⟩
        rw [if_neg (by decide), if_neg (by decide), if_neg (by decide),
          if_pos rfl]

/-- Claim C8 witness: one product row and one image row merge into exactly
two output rows. -/
theorem merge_stage_shape_witness : w8Out.length = 1 + 1 :=
  (merge_stage_shape w8Cols [w8Row] [w8Img] w8Out rfl).1

/-! ## Claim C9 -/

theorem normRow_idem (cols : List String) (r : String → String) :
    EcomAgents.normRow requiredCols
      (EcomAgents.rowFun (EcomAgents.normRow cols r)) =
    EcomAgents.normRow cols r := rfl

/-- Claim C9: the Schema Normalizer is idempotent — running
`build_shopify_csv` on its own output (read back through the written
25-column schema) reproduces the output exactly, altering no handle and no
column value. -/
theorem schema_normalizer_idempotent (cols : List String)
    (rows : List (String → String)) (out : List ShopifyRow)
    (h : EcomAgents.build_shopify_csv cols rows = some out) :
    EcomAgents.build_shopify_csv requiredCols (out.map EcomAgents.rowFun) =
      some out := by
  unfold EcomAgents.build_shopify_csv at h ⊢
  split at h
  case isFalse => exact absurd h (by simp)
  case isTrue hc =>
    have hout : out = rows.map (EcomAgents.normRow cols) :=
      (Option.some.inj h).symm
    rw [if_pos (by decide)]
    rw [hout, List.map_map, List.map_map]
    congr 1

/-- Claim C9 witness: a two-column input table normalizes, and normalizing
the written output again reproduces it. -/
theorem schema_normalizer_idempotent_witness :
    EcomAgents.build_shopify_csv requiredCols (w9Out.map EcomAgents.rowFun) =
      some w9Out :=
  schema_normalizer_idempotent w9Cols [w9Row] w9Out rfl
